import Mathlib

/-!
Shallow embedding of the Talknote website-generator backend
(`src/unnamed/part_004`, the `/api/generate-website` handler) and proofs
about its versioned, forkable artifact store and generation cache.

Modelling conventions:
* Firebase paths `websites/{id}` and `website_versions/{id}` are modelled as
  lists keyed by the `website_id` / `version_id` field; `set` at a key is
  "cons after removing any entry with that key", `update` maps the updating
  function over every entry with that key, `remove` filters the key out.
* JavaScript numbers are IEEE-754 binary64 values.  Version numbers are
  embedded exactly as `F64` (an integer mantissa times a power of two)
  together with round-to-nearest, ties-to-even rounding after each
  arithmetic operation, which is exactly what JS `+` performs on these
  values.  Timestamps and counters only ever hold small integers in the
  code, so they are embedded as `Nat`.
* Nondeterministic inputs of an operation (fresh UUIDs, `Date.now()`, the
  text produced by the Gemini call) are passed as explicit parameters.
* A thrown `Error(msg)` is modelled as `Except.error msg`; the thrown
  message strings are copied verbatim from the source.
-/

/-- Binary64 value `m * 2 ^ e`, the exact semantics of a JS number in the
normal range (sign/zero handling beyond what the version numbers exercise is
not needed: all version numbers are positive). -/
structure F64 where
  m : Int
  e : Int
deriving DecidableEq, Inhabited

/-- Exact rational value of an `F64`. -/
def toRat (d : F64) : ℚ := (d.m : ℚ) * 2 ^ d.e

/-- Floor of base-2 logarithm on naturals, by fuel-bounded halving (the fuel
is ample for every mantissa that can arise here; the recursion stops as soon
as the argument drops below 2). -/
def log2fuel : Nat → Nat → Nat
  | 0, _ => 0
  | fuel+1, n => if 2 ≤ n then log2fuel fuel (n / 2) + 1 else 0

/-- Floor of the base-2 logarithm of a natural number. -/
def natLog2 (n : Nat) : Nat := log2fuel 9999 n

/-- Round the integer `M / 2 ^ k` to the nearest integer, ties to even. -/
def rneShiftNat (M : Nat) (k : Nat) : Nat :=
  if k = 0 then M
  else
    let q := M / 2 ^ k
    let r := M % 2 ^ k
    let half := 2 ^ (k - 1)
    if r < half then q
    else if half < r then q + 1
    else if q % 2 = 0 then q else q + 1

/-- Round a positive `F64` (with an arbitrary-precision mantissa, e.g. the
exact sum of two binary64 numbers) to the nearest representable binary64
value: the mantissa is cut to 53 bits with round-to-nearest, ties-to-even.
This is the rounding JS applies to every arithmetic result. -/
def round64 (d : F64) : F64 :=
  if d.m ≤ 0 then ⟨0, 0⟩
  else
    let l : Int := (natLog2 d.m.toNat : Int) + d.e
    let u : Int := l - 52
    if d.e < u then ⟨(rneShiftNat d.m.toNat (u - d.e).toNat : Int), u⟩
    else ⟨d.m * 2 ^ (d.e - u).toNat, u⟩

/-- Exact sum of two `F64` values (before rounding): align the exponents. -/
def F64.add (a b : F64) : F64 :=
  if a.e ≤ b.e then ⟨a.m + b.m * 2 ^ (b.e - a.e).toNat, a.e⟩
  else ⟨a.m * 2 ^ (a.e - b.e).toNat + b.m, b.e⟩

/-- Mathematical floor of an `F64` value, as `Math.floor` computes it. -/
def F64.floor (d : F64) : Int :=
  if 0 ≤ d.e then d.m * 2 ^ d.e.toNat else d.m.fdiv (2 ^ (-d.e).toNat)

/-- The JS literal `1.0` (exactly representable). -/
def dOne : F64 := ⟨1, 0⟩

/-- The JS literal `0.1`: the binary64 value nearest to 1/10, namely
`7205759403792794 * 2 ^ (-56)`.  `d01_is_nearest_tenth` below checks that
this constant is within half an ulp of 1/10. -/
def d01 : F64 := ⟨7205759403792794, -56⟩

/-- Version number of a minor edit: `latestVersion.version_number + 0.1`
evaluated in binary64 (part_004 line 269). -/
def minorVersionNumber (v : F64) : F64 := round64 (v.add d01)

/-- Version number of a major edit:
`Math.floor(latestVersion.version_number) + 1` evaluated in binary64
(part_004 line 268). -/
def majorVersionNumber (v : F64) : F64 := round64 ⟨v.floor + 1, 0⟩

/-- An artifact record, as stored under `websites/{website_id}`
(part_004 `createWebsite` lines 137-153 and `forkWebsite` lines 314-332).
`thumbnail` and the fork-lineage fields are `Option`s because the JS objects
created by `forkWebsite` / `createWebsite` omit them respectively. -/
structure Website where
  website_id : String
  user_id : String
  project_name : String
  description : String
  type : String
  is_public : Bool
  tags : List String
  thumbnail : Option String
  is_fork : Bool
  original_website_id : Option String
  original_user_id : Option String
  total_versions : Nat
  latest_version_id : String
  total_edits : Nat
  total_views : Nat
  total_forks : Nat
  created_at : Nat
  updated_at : Nat
deriving DecidableEq, Inhabited

/-- A version record, as stored under `website_versions/{version_id}`
(part_004 lines 156-171, 258-275, 335-351). -/
structure Version where
  version_id : String
  website_id : String
  user_id : String
  html : String
  prompt : String
  edit_prompt : Option String
  type : String
  is_initial : Bool
  version_number : F64
  parent_version_id : Option String
  is_fork : Bool
  created_at : Nat
  updated_at : Nat
  view_count : Nat
  fork_count : Nat
deriving DecidableEq, Inhabited

/-- The persistent state: the `websites` and `website_versions` Firebase
collections. -/
structure Store where
  websites : List Website
  versions : List Version
deriving DecidableEq, Inhabited

/-- The `DEFAULT_WEBSITE_TYPE` configuration constant (line 10). -/
def DEFAULT_WEBSITE_TYPE : String := "general"

/-- The `DEFAULT_VARIATIONS` configuration constant (line 11). -/
def DEFAULT_VARIATIONS : Nat := 3

/-- The `MAX_VARIATIONS` configuration constant (line 12). -/
def MAX_VARIATIONS : Nat := 10

/-- Lookup `websites/{websiteId}` (source `getWebsiteById`, lines 181-187). -/
def getWebsiteById (s : Store) (websiteId : String) : Option Website :=
  s.websites.find? (fun w => w.website_id = websiteId)

/-- Lookup `website_versions/{versionId}` (source `getVersionById`,
lines 190-196). -/
def getVersionById (s : Store) (versionId : String) : Option Version :=
  s.versions.find? (fun v => v.version_id = versionId)

/-- Firebase `set` on `websites/{w.website_id}`. -/
def setWebsite (s : Store) (w : Website) : Store :=
  { s with websites := w :: s.websites.filter (fun x => x.website_id ≠ w.website_id) }

/-- Firebase `set` on `website_versions/{v.version_id}`. -/
def setVersion (s : Store) (v : Version) : Store :=
  { s with versions := v :: s.versions.filter (fun x => x.version_id ≠ v.version_id) }

/-- Firebase `update` on `websites/{websiteId}`: apply `g` to every record
stored at that key. -/
def updateWebsiteRec (s : Store) (websiteId : String) (g : Website → Website) : Store :=
  { s with websites := s.websites.map (fun w => if w.website_id = websiteId then g w else w) }

/-- Optional metadata supplied to `createWebsite` (missing JS object fields
are `none`). -/
structure WebsiteData where
  project_name : Option String := none
  description : Option String := none
  type : Option String := none
  is_public : Option Bool := none
  tags : Option (List String) := none
  thumbnail : Option String := none
deriving DecidableEq, Inhabited

/-- Data for the initial version supplied to `createWebsite`. -/
structure VersionData where
  html : String
  prompt : String
  edit_prompt : Option String := none
  type : Option String := none
deriving DecidableEq, Inhabited

/-- Source `createWebsite` (lines 131-178).  The fresh UUIDs and the
`Date.now()` timestamp are explicit parameters. -/
def createWebsite (s : Store) (userId : String) (websiteData : WebsiteData)
    (versionData : VersionData) (websiteId versionId : String) (timestamp : Nat) :
    Store × Website × Version :=
  let website : Website := {
    website_id := websiteId
    user_id := userId
    project_name := websiteData.project_name.getD "New Website"
    description := websiteData.description.getD ""
    type := websiteData.type.getD DEFAULT_WEBSITE_TYPE
    is_public := websiteData.is_public.getD false
    tags := websiteData.tags.getD []
    thumbnail := some (websiteData.thumbnail.getD "")
    is_fork := false
    original_website_id := none
    original_user_id := none
    total_versions := 1
    latest_version_id := versionId
    total_edits := 0
    total_views := 0
    total_forks := 0
    created_at := timestamp
    updated_at := timestamp }
  let version : Version := {
    version_id := versionId
    website_id := websiteId
    user_id := userId
    html := versionData.html
    prompt := versionData.prompt
    edit_prompt := versionData.edit_prompt
    type := versionData.type.getD DEFAULT_WEBSITE_TYPE
    is_initial := true
    version_number := dOne
    parent_version_id := none
    is_fork := false
    created_at := timestamp
    updated_at := timestamp
    view_count := 0
    fork_count := 0 }
  (setVersion (setWebsite s website) version, website, version)

/-- Source `editWebsite` (lines 225-289).  `gened` is the outcome of the
`generateHtmlCode(combinedPrompt, latestVersion.type)` call: `.ok html` for a
successful generation, `.error e` when that call throws (in which case
`editWebsite` rethrows it before writing anything).  `newVersionId` is the
fresh UUID and `timestamp` is `Date.now()`. -/
def editWebsite (s : Store) (websiteId userId : String) (edit_prompt : String)
    (is_major_edit : Bool) (gened : Except String String) (newVersionId : String)
    (timestamp : Nat) : Except String (Store × Website × Version) :=
  match getWebsiteById s websiteId with
  | none => .error "Website not found"
  | some website =>
    if website.user_id ≠ userId then .error "Unauthorized: You do not own this website"
    else
      match getVersionById s website.latest_version_id with
      | none => .error "No version found for website"
      | some latestVersion =>
        match gened with
        | .error e => .error e
        | .ok editedHtml =>
          let newVersion : Version := {
            version_id := newVersionId
            website_id := websiteId
            user_id := userId
            html := editedHtml
            prompt := latestVersion.prompt
            edit_prompt := some edit_prompt
            type := latestVersion.type
            is_initial := false
            version_number :=
              if is_major_edit then majorVersionNumber latestVersion.version_number
              else minorVersionNumber latestVersion.version_number
            parent_version_id := some latestVersion.version_id
            is_fork := false
            created_at := timestamp
            updated_at := timestamp
            view_count := 0
            fork_count := 0 }
          let s1 := setVersion s newVersion
          let s2 := updateWebsiteRec s1 websiteId (fun w =>
            { w with latest_version_id := newVersionId,
                     total_versions := website.total_versions + 1,
                     total_edits := website.total_edits + 1,
                     updated_at := timestamp })
          .ok (s2, { website with latest_version_id := newVersionId }, newVersion)

/-- Optional overrides supplied to `forkWebsite`. -/
structure ForkData where
  project_name : Option String := none
  description : Option String := none
  is_public : Option Bool := none
  tags : Option (List String) := none
  prompt : Option String := none
deriving DecidableEq, Inhabited

/-- Source `forkWebsite` (lines 292-364).  `newWebsiteId`/`newVersionId` are
the fresh UUIDs and `timestamp` is `Date.now()`. -/
def forkWebsite (s : Store) (originalWebsiteId userId : String) (forkData : ForkData)
    (newWebsiteId newVersionId : String) (timestamp : Nat) :
    Except String (Store × Website × Version) :=
  match getWebsiteById s originalWebsiteId with
  | none => .error "Original website not found"
  | some originalWebsite =>
    if originalWebsite.is_public = false then .error "Cannot fork private websites"
    else
      match getVersionById s originalWebsite.latest_version_id with
      | none => .error "No version found for website"
      | some latestVersion =>
        let newWebsite : Website := {
          website_id := newWebsiteId
          user_id := userId
          project_name := forkData.project_name.getD ("Fork of " ++ originalWebsite.project_name)
          description := forkData.description.getD originalWebsite.description
          type := originalWebsite.type
          is_public := forkData.is_public.getD false
          tags := forkData.tags.getD originalWebsite.tags
          thumbnail := none
          is_fork := true
          original_website_id := some originalWebsiteId
          original_user_id := some originalWebsite.user_id
          total_versions := 1
          latest_version_id := newVersionId
          total_edits := 0
          total_views := 0
          total_forks := 0
          created_at := timestamp
          updated_at := timestamp }
        let newVersion : Version := {
          version_id := newVersionId
          website_id := newWebsiteId
          user_id := userId
          html := latestVersion.html
          prompt := forkData.prompt.getD latestVersion.prompt
          edit_prompt := none
          type := latestVersion.type
          is_initial := true
          version_number := dOne
          parent_version_id := some latestVersion.version_id
          is_fork := true
          created_at := timestamp
          updated_at := timestamp
          view_count := 0
          fork_count := 0 }
        let s1 := setVersion (setWebsite s newWebsite) newVersion
        let s2 := updateWebsiteRec s1 originalWebsiteId (fun w =>
          { w with total_forks := originalWebsite.total_forks + 1, updated_at := timestamp })
        .ok (s2, newWebsite, newVersion)

/-- Source `deleteWebsite` (lines 395-424): removes the website record and
every version whose `website_id` matches. -/
def deleteWebsite (s : Store) (websiteId userId : String) : Except String Store :=
  match getWebsiteById s websiteId with
  | none => .error "Website not found"
  | some website =>
    if website.user_id ≠ userId then .error "Unauthorized: You do not own this website"
    else
      .ok { websites := s.websites.filter (fun w => w.website_id ≠ websiteId),
            versions := s.versions.filter (fun v => v.website_id ≠ websiteId) }

/-- Source `trackView` (lines 469-479). -/
def trackView (s : Store) (websiteId : String) (now : Nat) : Store :=
  match getWebsiteById s websiteId with
  | none => s
  | some _ =>
    updateWebsiteRec s websiteId (fun w =>
      { w with total_views := w.total_views + 1, updated_at := now })

/-- Filters accepted by `listWebsites` (a missing JS field is `none`). -/
structure ListFilters where
  user_id : Option String := none
  is_public : Option Bool := none
  type : Option String := none
  tags : Option (List String) := none
  limit : Option Nat := none
deriving DecidableEq, Inhabited

/-- Source `listWebsites` (lines 427-466): successive filters, then sort by
`updated_at` descending, then the truthy `limit` slice. -/
def listWebsites (s : Store) (filters : ListFilters) : List Website :=
  let ws : List Website := s.websites
  let ws : List Website := match filters.user_id with
    | some u => ws.filter (fun w => w.user_id = u)
    | none => ws
  let ws : List Website := match filters.is_public with
    | some b => ws.filter (fun w => w.is_public = b)
    | none => ws
  let ws : List Website := match filters.type with
    | some t => ws.filter (fun w => w.type = t)
    | none => ws
  let ws : List Website := match filters.tags with
    | some ts =>
      if ts ≠ [] then ws.filter (fun w => w.tags.any (fun tag => ts.contains tag)) else ws
    | none => ws
  let ws : List Website := ws.mergeSort (fun a b => b.updated_at ≤ a.updated_at)
  match filters.limit with
  | some n => if n = 0 then ws else ws.take n
  | none => ws

/-- An HTTP error response: status code plus the `error` string of the JSON
body. -/
structure ApiError where
  status : Nat
  error : String
deriving DecidableEq, Inhabited

/-- The single-website branch of `handleGetWebsites` (lines 877-906):
404 when the id resolves to nothing, 403 when the website is private and the
`user_id` query parameter (null for anonymous callers) is not the owner;
otherwise it tracks a view and returns the website with its latest version.
-/
def handleGetWebsite (s : Store) (website_id : String) (user_id : Option String)
    (now : Nat) : Except ApiError (Store × Website × Option Version) :=
  match getWebsiteById s website_id with
  | none => .error ⟨404, "Website not found"⟩
  | some website =>
    if website.is_public = false ∧ user_id ≠ some website.user_id then
      .error ⟨403, "Access denied. This website is private."⟩
    else
      .ok (trackView s website_id now, website, getVersionById s website.latest_version_id)

/-- The listing branch of `handleGetWebsites` (lines 908-921): builds the
filters from the query string; `is_public := true` is forced exactly when
`public_only` is set or no `user_id` filter was given.  There is no notion
of a requester identity on this path. -/
def handleListWebsites (s : Store) (user_id : Option String) (public_only : Bool)
    (type : Option String) (tags : Option (List String)) (limit : Option Nat) :
    List Website :=
  listWebsites s {
    user_id := user_id
    is_public := if public_only then some true else if user_id.isNone then some true else none
    type := type
    tags := tags
    limit := limit }

/-- Decidable equality for `Except`, needed to evaluate operation results on
concrete inputs. -/
instance {ε α : Type} [DecidableEq ε] [DecidableEq α] : DecidableEq (Except ε α)
  | .error a, .error b =>
    if h : a = b then .isTrue (h ▸ rfl) else .isFalse (fun hc => h (by cases hc; rfl))
  | .error _, .ok _ => .isFalse (fun hc => Except.noConfusion hc)
  | .ok _, .error _ => .isFalse (fun hc => Except.noConfusion hc)
  | .ok a, .ok b =>
    if h : a = b then .isTrue (h ▸ rfl) else .isFalse (fun hc => h (by cases hc; rfl))

/-- The in-memory `generationCache` map (line 48), as a keyed list.  The
source also schedules a `setTimeout` deletion after `CACHE_TTL_MS`; that
timer only removes entries and is outside this state model. -/
abbrev Cache := List (String × String)

/-- Cache key construction: the template literal `` `${prompt}:${type}` ``
(line 71). -/
def cacheKey (prompt type : String) : String := prompt ++ ":" ++ type

/-- Lookup in the generation cache (`generationCache.get`). -/
def cacheGet (c : Cache) (k : String) : Option String :=
  (c.find? (fun p => p.1 = k)).map (fun p => p.2)

/-- Store in the generation cache (`generationCache.set`). -/
def cacheSet (c : Cache) (k v : String) : Cache :=
  (k, v) :: c.filter (fun p => p.1 ≠ k)

/-- ASCII whitespace test used to model the `\s*` regex class and `trim()`
(the JS versions also accept rarer unicode spaces, which never occur in the
fenced prefixes this strips). -/
def isWS (ch : Char) : Bool := ch = ' ' ∨ ch = '\t' ∨ ch = '\n' ∨ ch = '\r'

/-- The `trim()` call on line 117. -/
def listTrim (l : List Char) : List Char :=
  ((l.dropWhile isWS).reverse.dropWhile isWS).reverse

/-- The `replace(/^```html\s*/, '')` call on line 117. -/
def dropFenceOpen (l : List Char) : List Char :=
  if "```html".data.isPrefixOf l then (l.drop 7).dropWhile isWS else l

/-- The `replace(/```$/, '')` call on line 117. -/
def dropFenceClose (l : List Char) : List Char :=
  if "```".data.isSuffixOf l then l.take (l.length - 3) else l

/-- Post-processing of the generated text (line 117). -/
def cleanGenerated (s : String) : String :=
  String.mk (listTrim (dropFenceClose (dropFenceOpen s.data)))

/-- Source `generateHtmlCode` (lines 68-128).  The external Gemini call is
modelled by `gen`: the source derives the request (`fullPrompt`, built from a
per-type instruction switch plus the prompt) injectively from
`(prompt, type)`, so the generator is a function of that pair; `.error e`
models a thrown API error (rethrown untouched by the catch on line 124), and
`.ok text` models `response.text` (the empty string doubling for a missing
text, both of which fail the `if (!text)` check).  A cache hit returns the
stored content without consulting `gen`; the caller receives the possibly
extended cache. -/
def generateHtmlCode (c : Cache) (gen : String → String → Except String String)
    (prompt type : String) : Except String (String × Cache) :=
  let key := cacheKey prompt type
  match cacheGet c key with
  | some cached => .ok (cached, c)
  | none =>
    match gen prompt type with
    | .error e => .error e
    | .ok text =>
      if text = "" then .error "No content generated."
      else
        let html := cleanGenerated text
        .ok (html, cacheSet c key html)

/-- The variation marker appended for variation `i` (line 487): the template
literal `` `${prompt} (variation ${i + 1}: focus on unique layout and color
scheme)` `` without its prompt prefix. -/
def variationMarker (i : Nat) : String :=
  " (variation " ++ toString i ++ ": focus on unique layout and color scheme)"

/-- The full varied prompt of variation `i` (line 487). -/
def variedPromptFor (prompt : String) (i : Nat) : String :=
  prompt ++ variationMarker i

/-- One element of the `results` array built by `generateVariations`
(lines 490-495). -/
structure VariationResult where
  variation_id : Nat
  html : String
  prompt : String
  type : String
deriving DecidableEq, Inhabited

/-- The `for` loop of `generateVariations` (lines 486-496): `n` iterations
remain and `i` iterations are already done; the cache is threaded through the
successive `generateHtmlCode` awaits, and a failed generation aborts the
whole batch (the source has no try/catch here). -/
def genVarsLoop (gen : String → String → Except String String)
    (prompt type : String) : Nat → Nat → Cache → Except String (List VariationResult × Cache)
  | 0, _, c => .ok ([], c)
  | n+1, i, c =>
    match generateHtmlCode c gen (variedPromptFor prompt (i + 1)) type with
    | .error e => .error e
    | .ok (html, c1) =>
      match genVarsLoop gen prompt type n (i + 1) c1 with
      | .error e => .error e
      | .ok (rest, c2) =>
        .ok ({ variation_id := i + 1, html := html,
               prompt := variedPromptFor prompt (i + 1), type := type } :: rest, c2)

/-- Source `generateVariations` (lines 482-499): clamp the count to
`MAX_VARIATIONS` and run the loop.  It only reads and writes the generation
cache; it has no access to the website/version store at all. -/
def generateVariations (c : Cache) (gen : String → String → Except String String)
    (prompt type : String) (variations : Nat) :
    Except String (List VariationResult × Cache) :=
  genVarsLoop gen prompt type (min variations MAX_VARIATIONS) 0 c

/-- Number of persisted versions belonging to `websiteId`. -/
def countVersions (s : Store) (websiteId : String) : Nat :=
  (s.versions.filter (fun v => v.website_id = websiteId)).length

/-- The claimed store invariant: every website's `total_versions` counter
equals the number of persisted versions carrying its id. -/
def StoreInv (s : Store) : Prop :=
  ∀ w ∈ s.websites, w.total_versions = countVersions s w.website_id

/-- One completed store operation, as observable between requests: a
successful `createWebsite`, `editWebsite`, `forkWebsite` or `deleteWebsite`.
The hypotheses on the ids state that the freshly drawn UUIDs do not collide
with stored ones. -/
inductive Step : Store → Store → Prop
  | create (s : Store) (userId : String) (wd : WebsiteData) (vd : VersionData)
      (websiteId versionId : String) (ts : Nat)
      (hw : ∀ w ∈ s.websites, w.website_id ≠ websiteId)
      (hv : ∀ v ∈ s.versions, v.version_id ≠ versionId)
      (hv2 : ∀ v ∈ s.versions, v.website_id ≠ websiteId) :
      Step s (createWebsite s userId wd vd websiteId versionId ts).1
  | edit (s : Store) (websiteId userId ep : String) (maj : Bool)
      (g : Except String String) (nvid : String) (ts : Nat)
      (s2 : Store) (w : Website) (v : Version)
      (hv : ∀ x ∈ s.versions, x.version_id ≠ nvid)
      (hok : editWebsite s websiteId userId ep maj g nvid ts = .ok (s2, w, v)) :
      Step s s2
  | fork (s : Store) (wid uid : String) (fd : ForkData) (nwid nvid : String) (ts : Nat)
      (s2 : Store) (w : Website) (v : Version)
      (hw : ∀ x ∈ s.websites, x.website_id ≠ nwid)
      (hv : ∀ x ∈ s.versions, x.version_id ≠ nvid)
      (hv2 : ∀ x ∈ s.versions, x.website_id ≠ nwid)
      (hok : forkWebsite s wid uid fd nwid nvid ts = .ok (s2, w, v)) :
      Step s s2
  | delete (s : Store) (wid uid : String) (s2 : Store)
      (hok : deleteWebsite s wid uid = .ok s2) :
      Step s s2

/-- Stores reachable from the empty deployment by completed operations. -/
inductive Reachable : Store → Prop
  | init : Reachable ⟨[], []⟩
  | step (s s2 : Store) : Reachable s → Step s s2 → Reachable s2

/-- Fixture: a private website owned by alice. -/
def cW1 : Website := {
  website_id := "w1", user_id := "alice", project_name := "P", description := "",
  type := "general", is_public := false, tags := [], thumbnail := some "",
  is_fork := false, original_website_id := none, original_user_id := none,
  total_versions := 1, latest_version_id := "v1", total_edits := 0,
  total_views := 0, total_forks := 0, created_at := 0, updated_at := 0 }

/-- Fixture: the single version of `cW1`. -/
def cV1 : Version := {
  version_id := "v1", website_id := "w1", user_id := "alice", html := "<p>x</p>",
  prompt := "site", edit_prompt := none, type := "general", is_initial := true,
  version_number := dOne, parent_version_id := none, is_fork := false,
  created_at := 0, updated_at := 0, view_count := 0, fork_count := 0 }

/-- Fixture: a store holding the private website `cW1`. -/
def cStorePrivate : Store := ⟨[cW1], [cV1]⟩

/-- Fixture: the same website made public. -/
def cW1pub : Website := { cW1 with is_public := true }

/-- Fixture: a store holding the public website `cW1pub`. -/
def cStorePublic : Store := ⟨[cW1pub], [cV1]⟩

/-- Fixture: bob forks alice's public website at time 5. -/
def c7res : Except String (Store × Website × Version) :=
  forkWebsite cStorePublic "w1" "bob" {} "w2" "v2" 5

/-- Fixture: the store after bob's fork. -/
def c7s : Store := match c7res with | .ok (s2, _, _) => s2 | .error _ => cStorePublic

/-- Fixture: the new website record returned by bob's fork. -/
def c7B : Website := match c7res with | .ok (_, x, _) => x | .error _ => default

/-- Fixture: the new version record returned by bob's fork. -/
def c7V : Version := match c7res with | .ok (_, _, x) => x | .error _ => default

/-- Fixture: a generator that always fails. -/
def c8genFail : String → String → Except String String := fun _ _ => .error "boom"

/-- Fixture: alice performs a minor edit at time 7. -/
def c2res : Except String (Store × Website × Version) :=
  editWebsite cStorePrivate "w1" "alice" "make it blue" false (.ok "<h1>new</h1>") "v2" 7

/-- Fixture: the store after alice's edit. -/
def c2s : Store := match c2res with | .ok (x, _, _) => x | .error _ => cStorePrivate

/-- Fixture: the website record returned by alice's edit. -/
def c2w : Website := match c2res with | .ok (_, x, _) => x | .error _ => default

/-- Fixture: the version record returned by alice's edit. -/
def c2v : Version := match c2res with | .ok (_, _, x) => x | .error _ => default

/-- Fixture: the store produced by one `createWebsite` on an empty store. -/
def c5s : Store :=
  (createWebsite ⟨[], []⟩ "alice" {} { html := "h", prompt := "p" } "w1" "v1" 0).1

/-- Fixture: a cache holding content stored for the pair ("a:b", "c"). -/
def c9cache : Cache := cacheSet [] (cacheKey "a:b" "c") "HTML1"

/-- Fixture: a generator that would produce different content. -/
def c9gen : String → String → Except String String := fun _ _ => .ok "HTML2"

/-- Fixture: a generator for the variation witness. -/
def c10gen : String → String → Except String String := fun _ _ => .ok "H"

/-- Fixture: two variations generated from prompt "p". -/
def c10res : Except String (List VariationResult × Cache) :=
  generateVariations [] c10gen "p" "landing" 2

/-- Fixture: the variation list of `c10res`. -/
def c10rs : List VariationResult :=
  match c10res with | .ok (rs, _) => rs | .error _ => []

/-- Fixture: the final cache of `c10res`. -/
def c10c : Cache :=
  match c10res with | .ok (_, c) => c | .error _ => []

/-- Sanity check for the `d01` constant: it is within half an ulp
(an ulp at 0.1 is `2 ^ (-56)`) of 1/10, hence it is the binary64 value that
the literal `0.1` parses to. -/
theorem d01_is_nearest_tenth : |toRat d01 - 1/10| ≤ 2 ^ (-57 : ℤ) := by
  simp only [toRat, d01]
  rw [abs_le]
  constructor <;> norm_num

/-- C1: the versioning arithmetic is IEEE-754 binary64, not exact decimal
arithmetic.  From a fresh artifact at 1.0, the first minor edit stores the
double 4953959590107546 * 2 ^ (-52) (which prints as 1.1 but differs from
11/10), and the second minor edit stores 5404319552844596 * 2 ^ (-52)
(which prints as 1.2000000000000002), not exactly 1.2; a major edit from
there still yields exactly 2. -/
theorem C1_versioning_float_drift :
    minorVersionNumber dOne = ⟨4953959590107546, -52⟩ ∧
    toRat (minorVersionNumber dOne) ≠ 11/10 ∧
    minorVersionNumber (minorVersionNumber dOne) = ⟨5404319552844596, -52⟩ ∧
    toRat (minorVersionNumber (minorVersionNumber dOne)) ≠ 6/5 ∧
    toRat (majorVersionNumber (minorVersionNumber (minorVersionNumber dOne))) = 2 := by
  have h1 : minorVersionNumber dOne = ⟨4953959590107546, -52⟩ := by decide
  have h2 : minorVersionNumber (minorVersionNumber dOne) = ⟨5404319552844596, -52⟩ := by decide
  have h3 : majorVersionNumber (minorVersionNumber (minorVersionNumber dOne)) =
      ⟨4503599627370496, -51⟩ := by decide
  refine ⟨h1, ?_, h2, ?_, ?_⟩
  · rw [h1]; simp only [toRat]; norm_num
  · rw [h2]; simp only [toRat]; norm_num
  · rw [h3]; simp only [toRat]; norm_num

/-- C4 counterexample: a non-owner reading a private website gets a 403
"Access denied" response, while a missing id gets a 404 "Website not found"
response — the two error shapes differ, so callers can distinguish "exists
but private" from "does not exist". -/
theorem C4_counterexample :
    handleGetWebsite cStorePrivate "w1" (some "mallory") 5 =
      .error ⟨403, "Access denied. This website is private."⟩ ∧
    handleGetWebsite cStorePrivate "w2" (some "mallory") 5 =
      .error ⟨404, "Website not found"⟩ ∧
    (⟨403, "Access denied. This website is private."⟩ : ApiError) ≠
      ⟨404, "Website not found"⟩ := by
  refine ⟨?_, ?_, ?_⟩ <;> decide

/-- C7 counterexample: bob's successful fork of alice's public website (whose
`updated_at` was 0) leaves the source with `updated_at = 5`, the fork's
timestamp — so the fork modifies more of the source than just `fork_count`.
-/
theorem C7_counterexample :
    getWebsiteById c7s "w1" = some { cW1pub with total_forks := 1, updated_at := 5 } ∧
    cW1pub.updated_at = 0 ∧ (5 : Nat) ≠ 0 := by
  refine ⟨?_, ?_, ?_⟩ <;> decide

/-- C9 counterexample: the cache key `prompt ++ ":" ++ type` is not injective
— the distinct pairs ("a:b", "c") and ("a", "b:c") share the key "a:b:c", so
a `generateHtmlCode` call for the second pair returns the content stored for
the first pair (and not what its own generator call would produce). -/
theorem C9_counterexample :
    cacheKey "a:b" "c" = cacheKey "a" "b:c" ∧
    (("a:b", "c") : String × String) ≠ ("a", "b:c") ∧
    generateHtmlCode c9cache c9gen "a" "b:c" = .ok ("HTML1", c9cache) ∧
    cleanGenerated "HTML2" ≠ "HTML1" := by
  refine ⟨?_, ?_, ?_, ?_⟩ <;> decide

/-- Filtering out a website id that no stored website carries is the
identity. -/
theorem filter_websites_fresh (l : List Website) (id : String)
    (h : ∀ w ∈ l, w.website_id ≠ id) :
    l.filter (fun x => x.website_id ≠ id) = l := by
  rw [List.filter_eq_self]
  intro a ha
  simpa using h a ha

/-- Filtering out a version id that no stored version carries is the
identity. -/
theorem filter_versions_fresh (l : List Version) (id : String)
    (h : ∀ v ∈ l, v.version_id ≠ id) :
    l.filter (fun x => x.version_id ≠ id) = l := by
  rw [List.filter_eq_self]
  intro a ha
  simpa using h a ha

/-- Looking up an id after a keyed update that preserves ids returns the
updated record. -/
theorem find?_update_websites (l : List Website) (id : String) (g : Website → Website)
    (hg : ∀ w, (g w).website_id = w.website_id) :
    (l.map (fun x => if x.website_id = id then g x else x)).find?
        (fun y => y.website_id = id)
      = (l.find? (fun y => y.website_id = id)).map g := by
  induction l with
  | nil => rfl
  | cons a l ih =>
    by_cases h : a.website_id = id
    · rw [List.map_cons, if_pos h, List.find?_cons_of_pos _ (by simp [hg, h]),
        List.find?_cons_of_pos _ (by simp [h])]
      rfl
    · rw [List.map_cons, if_neg h, List.find?_cons_of_neg _ (by simp [h]),
        List.find?_cons_of_neg _ (by simp [h]), ih]

/-- Shape of a successful `editWebsite` call: the checks passed and the
result is exactly the new version, the repointed website and the two writes.
-/
theorem editWebsite_ok {s : Store} {wid uid ep : String} {maj : Bool}
    {g : Except String String} {nvid : String} {ts : Nat}
    {s2 : Store} {w2 : Website} {v : Version}
    (hok : editWebsite s wid uid ep maj g nvid ts = .ok (s2, w2, v)) :
    ∃ website latestVersion editedHtml,
      getWebsiteById s wid = some website ∧
      website.user_id = uid ∧
      getVersionById s website.latest_version_id = some latestVersion ∧
      g = .ok editedHtml ∧
      v = { version_id := nvid, website_id := wid, user_id := uid, html := editedHtml,
            prompt := latestVersion.prompt, edit_prompt := some ep,
            type := latestVersion.type, is_initial := false,
            version_number :=
              if maj then majorVersionNumber latestVersion.version_number
              else minorVersionNumber latestVersion.version_number,
            parent_version_id := some latestVersion.version_id, is_fork := false,
            created_at := ts, updated_at := ts, view_count := 0, fork_count := 0 } ∧
      w2 = { website with latest_version_id := nvid } ∧
      s2 = updateWebsiteRec (setVersion s v) wid (fun w =>
        { w with latest_version_id := nvid,
                 total_versions := website.total_versions + 1,
                 total_edits := website.total_edits + 1,
                 updated_at := ts }) := by
  unfold editWebsite at hok
  cases hfind : getWebsiteById s wid with
  | none => rw [hfind] at hok; exact absurd hok (by simp)
  | some website =>
    simp only [hfind] at hok
    by_cases hu : website.user_id ≠ uid
    · rw [if_pos hu] at hok; exact absurd hok (by simp)
    · rw [if_neg hu] at hok
      cases hlv : getVersionById s website.latest_version_id with
      | none => simp only [hlv] at hok; exact absurd hok (by simp)
      | some latestVersion =>
        simp only [hlv] at hok
        cases hg : g with
        | error e => simp only [hg] at hok; exact absurd hok (by simp)
        | ok editedHtml =>
          simp only [hg, Except.ok.injEq, Prod.mk.injEq] at hok
          obtain ⟨hs2, hw2, hv⟩ := hok
          subst hs2 hw2 hv
          exact ⟨website, latestVersion, editedHtml, rfl, not_ne_iff.mp hu, hlv, rfl,
            rfl, rfl, rfl⟩

/-- Shape of a successful `forkWebsite` call. -/
theorem forkWebsite_ok {s : Store} {wid uid : String} {fd : ForkData}
    {nwid nvid : String} {ts : Nat} {s2 : Store} {w2 : Website} {v : Version}
    (hok : forkWebsite s wid uid fd nwid nvid ts = .ok (s2, w2, v)) :
    ∃ originalWebsite latestVersion,
      getWebsiteById s wid = some originalWebsite ∧
      originalWebsite.is_public = true ∧
      getVersionById s originalWebsite.latest_version_id = some latestVersion ∧
      w2 = { website_id := nwid, user_id := uid,
             project_name := fd.project_name.getD ("Fork of " ++ originalWebsite.project_name),
             description := fd.description.getD originalWebsite.description,
             type := originalWebsite.type,
             is_public := fd.is_public.getD false,
             tags := fd.tags.getD originalWebsite.tags,
             thumbnail := none, is_fork := true,
             original_website_id := some wid,
             original_user_id := some originalWebsite.user_id,
             total_versions := 1, latest_version_id := nvid,
             total_edits := 0, total_views := 0, total_forks := 0,
             created_at := ts, updated_at := ts } ∧
      v = { version_id := nvid, website_id := nwid, user_id := uid,
            html := latestVersion.html,
            prompt := fd.prompt.getD latestVersion.prompt,
            edit_prompt := none, type := latestVersion.type,
            is_initial := true, version_number := dOne,
            parent_version_id := some latestVersion.version_id, is_fork := true,
            created_at := ts, updated_at := ts, view_count := 0, fork_count := 0 } ∧
      s2 = updateWebsiteRec (setVersion (setWebsite s w2) v) wid (fun w =>
        { w with total_forks := originalWebsite.total_forks + 1, updated_at := ts }) := by
  unfold forkWebsite at hok
  cases hfind : getWebsiteById s wid with
  | none => rw [hfind] at hok; exact absurd hok (by simp)
  | some originalWebsite =>
    simp only [hfind] at hok
    by_cases hpub : originalWebsite.is_public = false
    · rw [if_pos hpub] at hok; exact absurd hok (by simp)
    · rw [if_neg hpub] at hok
      cases hlv : getVersionById s originalWebsite.latest_version_id with
      | none => simp only [hlv] at hok; exact absurd hok (by simp)
      | some latestVersion =>
        simp only [hlv, Except.ok.injEq, Prod.mk.injEq] at hok
        obtain ⟨hs2, hw2, hv⟩ := hok
        subst hs2 hw2 hv
        exact ⟨originalWebsite, latestVersion, rfl,
          Bool.eq_true_of_not_eq_false hpub, hlv, rfl, rfl, rfl⟩

/-- Shape of a successful `deleteWebsite` call. -/
theorem deleteWebsite_ok {s : Store} {wid uid : String} {s2 : Store}
    (hok : deleteWebsite s wid uid = .ok s2) :
    ∃ website,
      getWebsiteById s wid = some website ∧ website.user_id = uid ∧
      s2 = ⟨s.websites.filter (fun w => w.website_id ≠ wid),
            s.versions.filter (fun v => v.website_id ≠ wid)⟩ := by
  unfold deleteWebsite at hok
  cases hfind : getWebsiteById s wid with
  | none => rw [hfind] at hok; exact absurd hok (by simp)
  | some website =>
    simp only [hfind] at hok
    by_cases hu : website.user_id ≠ uid
    · rw [if_pos hu] at hok; exact absurd hok (by simp)
    · rw [if_neg hu] at hok
      simp only [Except.ok.injEq] at hok
      subst hok
      exact ⟨website, rfl, not_ne_iff.mp hu, rfl⟩

/-- C2: `editWebsite` returns "Website not found" when the id resolves to no
artifact and "Unauthorized" when the requester is not the owner (in both
cases producing no new store state, i.e. before any mutation); on success
(with a fresh version UUID) it appends exactly one new version — the
returned one, which carries `parent_version_id` = the previous
`latest_version_id`, `is_initial = false` and the fresh id — repoints the
website's `latest_version_id` to it, increments `total_versions` and
`total_edits` by one each and sets `updated_at` to the operation timestamp.
-/
theorem C2_edit_contract (s : Store) (wid uid ep : String) (maj : Bool)
    (g : Except String String) (nvid : String) (ts : Nat) :
    (getWebsiteById s wid = none →
      editWebsite s wid uid ep maj g nvid ts = .error "Website not found") ∧
    (∀ A, getWebsiteById s wid = some A → A.user_id ≠ uid →
      editWebsite s wid uid ep maj g nvid ts =
        .error "Unauthorized: You do not own this website") ∧
    (∀ A s2 w2 v, getWebsiteById s wid = some A →
      (∀ x ∈ s.versions, x.version_id ≠ nvid) →
      editWebsite s wid uid ep maj g nvid ts = .ok (s2, w2, v) →
      v.parent_version_id = some A.latest_version_id ∧
      v.is_initial = false ∧ v.version_id = nvid ∧
      s2.versions = v :: s.versions ∧
      getWebsiteById s2 wid = some { A with
                                     latest_version_id := nvid,
                                     total_versions := A.total_versions + 1,
                                     total_edits := A.total_edits + 1,
                                     updated_at := ts }) := by
  refine ⟨?_, ?_, ?_⟩
  · intro h
    unfold editWebsite
    rw [h]
  · intro A hA hne
    unfold editWebsite
    simp only [hA]
    rw [if_pos hne]
  · intro A s2 w2 v hA hfresh hok
    obtain ⟨website, latestVersion, editedHtml, hfind, hu, hlv, hg, hv, hw2, hs2⟩ :=
      editWebsite_ok hok
    have hAw : website = A := by rw [hA] at hfind; exact (Option.some.injEq _ _ ▸ hfind).symm
    subst hAw
    have hlvid : latestVersion.version_id = website.latest_version_id := by
      have := List.find?_some hlv
      simpa using this
    have hwid : website.website_id = wid := by
      have := List.find?_some hfind
      simpa using this
    have hvers : s2.versions = v :: s.versions := by
      rw [hs2]
      show (setVersion s v).versions = v :: s.versions
      rw [setVersion]
      simp only [hv]
      rw [filter_versions_fresh s.versions nvid hfresh]
    refine ⟨?_, ?_, ?_, hvers, ?_⟩
    · rw [hv, hlvid]
    · rw [hv]
    · rw [hv]
    · have key := find?_update_websites s.websites wid
        (fun w =>
          { w with
            latest_version_id := nvid,
            total_versions := website.total_versions + 1,
            total_edits := website.total_edits + 1,
            updated_at := ts })
        (fun w => rfl)
      have hfind2 : List.find? (fun y => decide (y.website_id = wid)) s.websites =
          some website := hfind
      rw [hs2]
      exact key.trans (by rw [hfind2]; rfl)

/-- C2 witness: alice's minor edit of her own website at time 7 satisfies the
hypotheses of the edit contract, and the contract's conclusions hold for it.
-/
theorem C2_edit_contract_witness :
    getWebsiteById cStorePrivate "w1" = some cW1 ∧
    (∀ x ∈ cStorePrivate.versions, x.version_id ≠ "v2") ∧
    editWebsite cStorePrivate "w1" "alice" "make it blue" false (.ok "<h1>new</h1>") "v2" 7 =
      .ok (c2s, c2w, c2v) ∧
    (c2v.parent_version_id = some cW1.latest_version_id ∧
     c2v.is_initial = false ∧ c2v.version_id = "v2" ∧
     c2s.versions = c2v :: cStorePrivate.versions ∧
     getWebsiteById c2s "w1" = some { cW1 with
                                      latest_version_id := "v2",
                                      total_versions := cW1.total_versions + 1,
                                      total_edits := cW1.total_edits + 1,
                                      updated_at := 7 }) :=
  ⟨by decide, by decide, by decide,
   (C2_edit_contract cStorePrivate "w1" "alice" "make it blue" false
      (.ok "<h1>new</h1>") "v2" 7).2.2 cW1 c2s c2w c2v (by decide) (by decide) (by decide)⟩

/-- C4 amended: a non-owner (or anonymous) `get` on a private website returns
the 403 AccessDenied response rather than the 404 NotFound one, but the two
error shapes differ (different status and message), so "exists but private"
and "does not exist" are distinguishable. -/
theorem C4_private_get_distinguishable (s : Store) (wid : String) (uq : Option String)
    (now : Nat) :
    (∀ A, getWebsiteById s wid = some A → A.is_public = false → uq ≠ some A.user_id →
      handleGetWebsite s wid uq now =
        .error ⟨403, "Access denied. This website is private."⟩) ∧
    (getWebsiteById s wid = none →
      handleGetWebsite s wid uq now = .error ⟨404, "Website not found"⟩) ∧
    (⟨403, "Access denied. This website is private."⟩ : ApiError) ≠
      ⟨404, "Website not found"⟩ := by
  refine ⟨?_, ?_, by decide⟩
  · intro A hA hpriv hne
    unfold handleGetWebsite
    simp only [hA]
    rw [if_pos ⟨hpriv, hne⟩]
  · intro h
    unfold handleGetWebsite
    rw [h]

/-- C4 witness: an anonymous reader of alice's private website hits the
hypotheses of the amended theorem and receives the 403 response. -/
theorem C4_private_get_distinguishable_witness :
    getWebsiteById cStorePrivate "w1" = some cW1 ∧
    cW1.is_public = false ∧ (none ≠ some cW1.user_id) ∧
    handleGetWebsite cStorePrivate "w1" none 5 =
      .error ⟨403, "Access denied. This website is private."⟩ :=
  ⟨by decide, by decide, by decide,
   (C4_private_get_distinguishable cStorePrivate "w1" none 5).1 cW1
      (by decide) (by decide) (by decide)⟩

/-- Frame fact of a successful fork: the source website record afterwards
differs only in `total_forks` and `updated_at`. -/
theorem fork_source_website_aux (s : Store) (wid uid : String) (fd : ForkData)
    (nwid nvid : String) (ts : Nat) (s2 : Store) (B : Website) (V : Version) (A : Website)
    (hA : getWebsiteById s wid = some A)
    (hw : ∀ x ∈ s.websites, x.website_id ≠ nwid)
    (hok : forkWebsite s wid uid fd nwid nvid ts = .ok (s2, B, V)) :
    getWebsiteById s2 wid = some { A with
                                   total_forks := A.total_forks + 1,
                                   updated_at := ts } := by
  obtain ⟨ow, lv, hfind, hpub, hlv, hB, hV, hs2⟩ := forkWebsite_ok hok
  have howA : ow = A := by rw [hA] at hfind; exact (Option.some.inj hfind).symm
  subst howA
  have hA2 : List.find? (fun w => decide (w.website_id = wid)) s.websites = some ow := hA
  have hwid : ow.website_id = wid := by simpa using List.find?_some hA2
  have hmem : ow ∈ s.websites := List.mem_of_find?_eq_some hA2
  have hne : ¬ (nwid = wid) := by
    intro h
    exact (hw ow hmem) (by rw [h, hwid])
  have key := find?_update_websites s.websites wid
    (fun w => { w with total_forks := ow.total_forks + 1, updated_at := ts })
    (fun w => rfl)
  rw [hs2]
  unfold getWebsiteById updateWebsiteRec setVersion setWebsite
  dsimp only
  rw [hB]
  dsimp only
  rw [filter_websites_fresh s.websites nwid hw]
  rw [List.map_cons]
  rw [List.find?_cons_of_neg _ (by simp [hne])]
  exact key.trans (by rw [hA2]; rfl)

/-- Frame fact of a successful fork: the versions belonging to the source
are untouched. -/
theorem fork_source_versions_aux (s : Store) (wid uid : String) (fd : ForkData)
    (nwid nvid : String) (ts : Nat) (s2 : Store) (B : Website) (V : Version) (A : Website)
    (hA : getWebsiteById s wid = some A)
    (hw : ∀ x ∈ s.websites, x.website_id ≠ nwid)
    (hv : ∀ x ∈ s.versions, x.version_id ≠ nvid)
    (hok : forkWebsite s wid uid fd nwid nvid ts = .ok (s2, B, V)) :
    s2.versions.filter (fun x => x.website_id = wid) =
      s.versions.filter (fun x => x.website_id = wid) := by
  obtain ⟨ow, lv, hfind, hpub, hlv, hB, hV, hs2⟩ := forkWebsite_ok hok
  have howA : ow = A := by rw [hA] at hfind; exact (Option.some.inj hfind).symm
  subst howA
  have hA2 : List.find? (fun w => decide (w.website_id = wid)) s.websites = some ow := hA
  have hwid : ow.website_id = wid := by simpa using List.find?_some hA2
  have hmem : ow ∈ s.websites := List.mem_of_find?_eq_some hA2
  have hne : ¬ (nwid = wid) := by
    intro h
    exact (hw ow hmem) (by rw [h, hwid])
  have hvers : s2.versions = V :: s.versions := by
    rw [hs2]
    show (setVersion (setWebsite s B) V).versions = V :: s.versions
    rw [setVersion, setWebsite]
    dsimp only
    rw [hV]
    dsimp only
    rw [filter_versions_fresh s.versions nvid hv]
  rw [hvers, hV]
  rw [List.filter_cons_of_neg]
  simp [hne]

/-- C7 amended: a successful fork changes the source website in exactly two
fields — `total_forks` is incremented by one and `updated_at` is set to the
fork timestamp — and leaves the source's versions untouched (its only other
write is the brand-new website and version pair under fresh ids). -/
theorem C7_fork_frame (s : Store) (wid uid : String) (fd : ForkData)
    (nwid nvid : String) (ts : Nat) (s2 : Store) (B : Website) (V : Version) (A : Website)
    (hA : getWebsiteById s wid = some A)
    (hw : ∀ x ∈ s.websites, x.website_id ≠ nwid)
    (hv : ∀ x ∈ s.versions, x.version_id ≠ nvid)
    (hok : forkWebsite s wid uid fd nwid nvid ts = .ok (s2, B, V)) :
    getWebsiteById s2 wid = some { A with
                                   total_forks := A.total_forks + 1,
                                   updated_at := ts } ∧
    s2.versions.filter (fun x => x.website_id = wid) =
      s.versions.filter (fun x => x.website_id = wid) :=
  ⟨fork_source_website_aux s wid uid fd nwid nvid ts s2 B V A hA hw hok,
   fork_source_versions_aux s wid uid fd nwid nvid ts s2 B V A hA hw hv hok⟩

/-- C7 witness: bob's fork of alice's public website satisfies the frame
theorem's hypotheses, and its conclusions hold for the resulting store. -/
theorem C7_fork_frame_witness :
    getWebsiteById cStorePublic "w1" = some cW1pub ∧
    (∀ x ∈ cStorePublic.websites, x.website_id ≠ "w2") ∧
    (∀ x ∈ cStorePublic.versions, x.version_id ≠ "v2") ∧
    forkWebsite cStorePublic "w1" "bob" {} "w2" "v2" 5 = .ok (c7s, c7B, c7V) ∧
    (getWebsiteById c7s "w1" = some { cW1pub with
                                      total_forks := cW1pub.total_forks + 1,
                                      updated_at := 5 } ∧
     c7s.versions.filter (fun x => x.website_id = "w1") =
       cStorePublic.versions.filter (fun x => x.website_id = "w1")) :=
  ⟨by decide, by decide, by decide, by decide,
   C7_fork_frame cStorePublic "w1" "bob" {} "w2" "v2" 5 c7s c7B c7V cW1pub
     (by decide) (by decide) (by decide) (by decide)⟩

/-- C3: forking a non-public website fails for every caller (the source has
no owner exemption), and a successful fork of a public source creates a
brand-new website owned by the requester with `is_fork = true`, lineage
pointers to the source artifact and owner, one initial version numbered 1.0
whose content is copied from the source's latest version and whose
`parent_version_id` is that version's id, visibility defaulting to private
unless overridden, and it bumps the source's `fork_count` by exactly one. -/
theorem C3_fork_contract (s : Store) (wid uid : String) (fd : ForkData)
    (nwid nvid : String) (ts : Nat) :
    (∀ A, getWebsiteById s wid = some A → A.is_public = false →
      forkWebsite s wid uid fd nwid nvid ts = .error "Cannot fork private websites") ∧
    (∀ A s2 B V, getWebsiteById s wid = some A →
      (∀ x ∈ s.websites, x.website_id ≠ nwid) →
      forkWebsite s wid uid fd nwid nvid ts = .ok (s2, B, V) →
      B.website_id = nwid ∧ B.user_id = uid ∧ B.is_fork = true ∧
      B.original_website_id = some wid ∧ B.original_user_id = some A.user_id ∧
      B.total_versions = 1 ∧ B.is_public = fd.is_public.getD false ∧
      V.version_number = dOne ∧ V.is_initial = true ∧ V.website_id = nwid ∧
      (∀ LV, getVersionById s A.latest_version_id = some LV →
        V.html = LV.html ∧ V.parent_version_id = some LV.version_id) ∧
      getWebsiteById s2 wid = some { A with
                                     total_forks := A.total_forks + 1,
                                     updated_at := ts } ∧
      getWebsiteById s2 nwid = some B) := by
  constructor
  · intro A hA hpriv
    unfold forkWebsite
    simp only [hA]
    rw [if_pos hpriv]
  · intro A s2 B V hA hw hok
    obtain ⟨ow, lv, hfind, hpub, hlv, hB, hV, hs2⟩ := forkWebsite_ok hok
    have howA : ow = A := by rw [hA] at hfind; exact (Option.some.inj hfind).symm
    subst howA
    have hA2 : List.find? (fun w => decide (w.website_id = wid)) s.websites = some ow := hA
    have hwid : ow.website_id = wid := by simpa using List.find?_some hA2
    have hmem : ow ∈ s.websites := List.mem_of_find?_eq_some hA2
    have hne : ¬ (nwid = wid) := by
      intro h
      exact (hw ow hmem) (by rw [h, hwid])
    refine ⟨by rw [hB], by rw [hB], by rw [hB], by rw [hB], by rw [hB], by rw [hB],
      by rw [hB], by rw [hV], by rw [hV], by rw [hV], ?_, ?_, ?_⟩
    · intro LV hLV
      rw [hlv] at hLV
      have hlveq : lv = LV := Option.some.inj hLV
      subst hlveq
      exact ⟨by rw [hV], by rw [hV]⟩
    · exact fork_source_website_aux s wid uid fd nwid nvid ts s2 B V ow hA hw hok
    · rw [hs2]
      unfold getWebsiteById updateWebsiteRec setVersion setWebsite
      dsimp only
      rw [hB]
      dsimp only
      rw [List.map_cons]
      rw [List.find?_cons_of_pos _ (by simp [hne])]
      simp [hne]

/-- C3 witness: alice cannot fork her own private website, while bob's fork
of the public one satisfies the success hypotheses and all conclusions. -/
theorem C3_fork_contract_witness :
    getWebsiteById cStorePrivate "w1" = some cW1 ∧ cW1.is_public = false ∧
    forkWebsite cStorePrivate "w1" "alice" {} "w2" "v2" 5 =
      .error "Cannot fork private websites" ∧
    getWebsiteById cStorePublic "w1" = some cW1pub ∧
    (∀ x ∈ cStorePublic.websites, x.website_id ≠ "w2") ∧
    forkWebsite cStorePublic "w1" "bob" {} "w2" "v2" 5 = .ok (c7s, c7B, c7V) ∧
    (c7B.website_id = "w2" ∧ c7B.user_id = "bob" ∧ c7B.is_fork = true ∧
     c7B.original_website_id = some "w1" ∧ c7B.original_user_id = some cW1pub.user_id ∧
     c7B.total_versions = 1 ∧ c7B.is_public = ({} : ForkData).is_public.getD false ∧
     c7V.version_number = dOne ∧ c7V.is_initial = true ∧ c7V.website_id = "w2" ∧
     (∀ LV, getVersionById cStorePublic cW1pub.latest_version_id = some LV →
       c7V.html = LV.html ∧ c7V.parent_version_id = some LV.version_id) ∧
     getWebsiteById c7s "w1" = some { cW1pub with
                                      total_forks := cW1pub.total_forks + 1,
                                      updated_at := 5 } ∧
     getWebsiteById c7s "w2" = some c7B) :=
  ⟨by decide, by decide,
   (C3_fork_contract cStorePrivate "w1" "alice" {} "w2" "v2" 5).1 cW1
     (by decide) (by decide),
   by decide, by decide, by decide,
   (C3_fork_contract cStorePublic "w1" "bob" {} "w2" "v2" 5).2 cW1pub c7s c7B c7V
     (by decide) (by decide) (by decide)⟩

/-- Preservation of the counter invariant by one `createWebsite`. -/
theorem storeInv_create {s : Store} (hinv : StoreInv s) (userId : String)
    (wd : WebsiteData) (vd : VersionData) (websiteId versionId : String) (ts : Nat)
    (hw : ∀ w ∈ s.websites, w.website_id ≠ websiteId)
    (hv : ∀ v ∈ s.versions, v.version_id ≠ versionId)
    (hv2 : ∀ v ∈ s.versions, v.website_id ≠ websiteId) :
    StoreInv (createWebsite s userId wd vd websiteId versionId ts).1 := by
  intro w hwmem
  unfold createWebsite setVersion setWebsite at hwmem ⊢
  dsimp only at hwmem ⊢
  rw [filter_websites_fresh s.websites websiteId hw] at hwmem
  rw [countVersions]
  dsimp only
  rw [filter_versions_fresh s.versions versionId hv]
  rcases List.mem_cons.mp hwmem with hhead | htail
  · subst hhead
    dsimp only
    rw [List.filter_cons_of_pos (by simp)]
    have : s.versions.filter (fun v => decide (v.website_id = websiteId)) = [] := by
      rw [List.filter_eq_nil_iff]
      intro a ha
      simpa using hv2 a ha
    rw [this]
    rfl
  · have hne : w.website_id ≠ websiteId := hw w htail
    rw [List.filter_cons_of_neg (by simpa using fun h => hne h.symm)]
    exact hinv w htail

/-- Preservation of the counter invariant by one successful `editWebsite`. -/
theorem storeInv_edit {s : Store} (hinv : StoreInv s) {wid uid ep : String} {maj : Bool}
    {g : Except String String} {nvid : String} {ts : Nat}
    {s2 : Store} {w2 : Website} {v : Version}
    (hv : ∀ x ∈ s.versions, x.version_id ≠ nvid)
    (hok : editWebsite s wid uid ep maj g nvid ts = .ok (s2, w2, v)) :
    StoreInv s2 := by
  obtain ⟨website, lv, html, hfind, hu, hlv, hg, hveq, hw2eq, hs2⟩ := editWebsite_ok hok
  have hfind2 : List.find? (fun y => decide (y.website_id = wid)) s.websites =
      some website := hfind
  have hwid : website.website_id = wid := by simpa using List.find?_some hfind2
  have hwmem0 : website ∈ s.websites := List.mem_of_find?_eq_some hfind2
  have hvers : s2.versions = v :: s.versions := by
    rw [hs2]
    show (setVersion s v).versions = v :: s.versions
    rw [setVersion]
    dsimp only
    rw [hveq]
    dsimp only
    rw [filter_versions_fresh s.versions nvid hv]
  have hvwid : v.website_id = wid := by rw [hveq]
  have hwebs : s2.websites = s.websites.map (fun x =>
      if x.website_id = wid then
        { x with
          latest_version_id := nvid,
          total_versions := website.total_versions + 1,
          total_edits := website.total_edits + 1,
          updated_at := ts }
      else x) := by
    rw [hs2]; rfl
  intro w hwmem
  rw [hwebs] at hwmem
  obtain ⟨x, hx, hwx⟩ := List.mem_map.mp hwmem
  rw [countVersions, hvers]
  by_cases hxid : x.website_id = wid
  · rw [if_pos hxid] at hwx
    subst hwx
    dsimp only
    rw [List.filter_cons_of_pos (by simp [hvwid, hxid])]
    rw [List.length_cons]
    have hbase := hinv website hwmem0
    rw [countVersions, hwid] at hbase
    rw [hxid, ← hbase]
  · rw [if_neg hxid] at hwx
    subst hwx
    rw [List.filter_cons_of_neg (by simp [hvwid]; exact fun h => hxid h.symm)]
    exact hinv x hx

/-- Preservation of the counter invariant by one successful `forkWebsite`. -/
theorem storeInv_fork {s : Store} (hinv : StoreInv s) {wid uid : String} {fd : ForkData}
    {nwid nvid : String} {ts : Nat} {s2 : Store} {B : Website} {V : Version}
    (hw : ∀ x ∈ s.websites, x.website_id ≠ nwid)
    (hv : ∀ x ∈ s.versions, x.version_id ≠ nvid)
    (hv2 : ∀ x ∈ s.versions, x.website_id ≠ nwid)
    (hok : forkWebsite s wid uid fd nwid nvid ts = .ok (s2, B, V)) :
    StoreInv s2 := by
  obtain ⟨ow, lv, hfind, hpub, hlv, hB, hV, hs2⟩ := forkWebsite_ok hok
  have hBwid : B.website_id = nwid := by rw [hB]
  have hBtv : B.total_versions = 1 := by rw [hB]
  have hVwid : V.website_id = nwid := by rw [hV]
  have hvers : s2.versions = V :: s.versions := by
    rw [hs2]
    show (setVersion (setWebsite s B) V).versions = V :: s.versions
    rw [setVersion, setWebsite]
    dsimp only
    rw [hV]
    dsimp only
    rw [filter_versions_fresh s.versions nvid hv]
  have hwebs : s2.websites = (B :: s.websites).map (fun x =>
      if x.website_id = wid then
        { x with total_forks := ow.total_forks + 1, updated_at := ts }
      else x) := by
    rw [hs2, hB]
    unfold updateWebsiteRec setVersion setWebsite
    dsimp only
    rw [filter_websites_fresh s.websites nwid hw]
  intro w hwmem
  rw [hwebs] at hwmem
  obtain ⟨x, hx, hwx⟩ := List.mem_map.mp hwmem
  rw [countVersions, hvers]
  rcases List.mem_cons.mp hx with hhead | htail
  · rw [hhead] at hwx
    have hwB : w = B ∨ w = { B with total_forks := ow.total_forks + 1, updated_at := ts } := by
      by_cases h : B.website_id = wid
      · rw [if_pos h] at hwx; exact Or.inr hwx.symm
      · rw [if_neg h] at hwx; exact Or.inl hwx.symm
    have hwtv : w.total_versions = 1 := by
      rcases hwB with h | h <;> rw [h] <;> simp [hBtv]
    have hwwid : w.website_id = nwid := by
      rcases hwB with h | h <;> rw [h] <;> simp [hBwid]
    rw [hwtv, hwwid]
    rw [List.filter_cons_of_pos (by simp [hVwid])]
    have hnil : s.versions.filter (fun x => decide (x.website_id = nwid)) = [] := by
      rw [List.filter_eq_nil_iff]
      intro a ha
      simpa using hv2 a ha
    rw [hnil]
    rfl
  · have hxtv : w.total_versions = x.total_versions ∧ w.website_id = x.website_id := by
      by_cases h : x.website_id = wid
      · rw [if_pos h] at hwx; rw [← hwx]; exact ⟨rfl, rfl⟩
      · rw [if_neg h] at hwx; rw [← hwx]; exact ⟨rfl, rfl⟩
    have hxne : x.website_id ≠ nwid := hw x htail
    rw [hxtv.1, hxtv.2]
    rw [List.filter_cons_of_neg (by simp [hVwid]; exact fun h => hxne h.symm)]
    exact hinv x htail

/-- Preservation of the counter invariant by one successful `deleteWebsite`.
-/
theorem storeInv_delete {s : Store} (hinv : StoreInv s) {wid uid : String} {s2 : Store}
    (hok : deleteWebsite s wid uid = .ok s2) : StoreInv s2 := by
  obtain ⟨website, hfind, hu, hs2⟩ := deleteWebsite_ok hok
  intro w hwmem
  rw [hs2] at hwmem ⊢
  dsimp only at hwmem ⊢
  have hmem := List.mem_filter.mp hwmem
  have hwne : w.website_id ≠ wid := by simpa using hmem.2
  rw [countVersions]
  dsimp only
  rw [List.filter_filter]
  have hcongr : s.versions.filter
      (fun a => decide (a.website_id = w.website_id) && decide (a.website_id ≠ wid)) =
      s.versions.filter (fun a => decide (a.website_id = w.website_id)) := by
    apply List.filter_congr
    intro a ha
    by_cases h : a.website_id = w.website_id
    · simp [h, hwne]
    · simp [h]
  rw [hcongr]
  exact hinv w hmem.1

/-- Preservation of the counter invariant by any completed operation. -/
theorem storeInv_step {s s2 : Store} (hinv : StoreInv s) (hstep : Step s s2) :
    StoreInv s2 := by
  cases hstep with
  | create userId wd vd websiteId versionId ts hw hv hv2 =>
    exact storeInv_create hinv userId wd vd websiteId versionId ts hw hv hv2
  | edit websiteId userId ep maj g nvid ts sx w v hv hok =>
    exact storeInv_edit hinv hv hok
  | fork wid uid fd nwid nvid ts sx w v hw hv hv2 hok =>
    exact storeInv_fork hinv hw hv hv2 hok
  | delete wid uid sx hok =>
    exact storeInv_delete hinv hok

/-- C5: in every store reachable by completed `create`, `edit`, `fork` and
`delete` operations (i.e. at every state observable between operations),
each website's `total_versions` equals the number of persisted versions
carrying its `website_id`. -/
theorem C5_version_count_invariant (s : Store) (h : Reachable s) :
    ∀ w ∈ s.websites, w.total_versions = countVersions s w.website_id := by
  induction h with
  | init => intro w hw; simp at hw
  | step s s2 hreach hstep ih => exact storeInv_step ih hstep

/-- C5 witness: the store reached by one `createWebsite` from the empty
deployment is reachable and satisfies the invariant. -/
theorem C5_version_count_invariant_witness :
    Reachable c5s ∧ ∀ w ∈ c5s.websites, w.total_versions = countVersions c5s w.website_id := by
  have hr : Reachable c5s :=
    Reachable.step ⟨[], []⟩ c5s Reachable.init
      (Step.create ⟨[], []⟩ "alice" {} { html := "h", prompt := "p" } "w1" "v1" 0
        (by simp) (by simp) (by simp))
  exact ⟨hr, C5_version_count_invariant c5s hr⟩

/-- C6: the owner-scoped listing (`user_id` filter given, no `public_only`)
returns all of that owner's websites, private ones included — the listing
path takes no requester identity at all, so any caller (anonymous included)
can enumerate any user's private websites; the unscoped listing (no
`user_id`, no `public_only`) is restricted to public websites. -/
theorem C6_owner_listing_leaks_private (s : Store) (u : String) (w : Website) :
    (w ∈ handleListWebsites s (some u) false none none none ↔
      w ∈ s.websites ∧ w.user_id = u) ∧
    (w ∈ handleListWebsites s none false none none none ↔
      w ∈ s.websites ∧ w.is_public = true) := by
  have hmem : ∀ (l : List Website),
      w ∈ l.mergeSort (fun a b => b.updated_at ≤ a.updated_at) ↔ w ∈ l :=
    fun l => (List.mergeSort_perm l _).mem_iff
  constructor
  · unfold handleListWebsites listWebsites
    simp only [Option.isNone_some, if_false, Bool.false_eq_true, Option.isNone_none]
    rw [hmem, List.mem_filter]
    simp
  · unfold handleListWebsites listWebsites
    simp only [Option.isNone_some, if_false, Bool.false_eq_true, Option.isNone_none, if_true]
    rw [hmem, List.mem_filter]
    simp

/-- C8: when the key is not cached, a generator failure propagates unchanged
and an empty generation raises "No content generated.", in both cases
without returning any extended cache (the caller keeps `c`, so the same key
is still a miss); and any successful result comes from a non-empty
generation whose cleaned content is exactly what gets cached under the key.
-/
theorem C8_cache_only_on_success (c : Cache) (gen : String → String → Except String String)
    (prompt type e : String) :
    (cacheGet c (cacheKey prompt type) = none → gen prompt type = .error e →
      generateHtmlCode c gen prompt type = .error e) ∧
    (cacheGet c (cacheKey prompt type) = none → gen prompt type = .ok "" →
      generateHtmlCode c gen prompt type = .error "No content generated.") ∧
    (∀ html c2, cacheGet c (cacheKey prompt type) = none →
      generateHtmlCode c gen prompt type = .ok (html, c2) →
      ∃ text, gen prompt type = .ok text ∧ text ≠ "" ∧ html = cleanGenerated text ∧
        c2 = cacheSet c (cacheKey prompt type) html) := by
  refine ⟨?_, ?_, ?_⟩
  · intro hmiss hgen
    unfold generateHtmlCode
    simp only [hmiss, hgen]
  · intro hmiss hgen
    simp [generateHtmlCode, hmiss, hgen]
  · intro html c2 hmiss hok
    unfold generateHtmlCode at hok
    simp only [hmiss] at hok
    cases hgen : gen prompt type with
    | error e2 =>
      simp only [hgen] at hok
      exact absurd hok (by simp)
    | ok text =>
      simp only [hgen] at hok
      by_cases ht : text = ""
      · rw [if_pos ht] at hok
        exact absurd hok (by simp)
      · rw [if_neg ht] at hok
        simp only [Except.ok.injEq, Prod.mk.injEq] at hok
        exact ⟨text, rfl, ht, hok.1.symm, by rw [← hok.1]; exact hok.2.symm⟩

/-- C8 witness: with an empty cache, a failing generator call propagates its
error through `generateHtmlCode`. -/
theorem C8_cache_only_on_success_witness :
    cacheGet [] (cacheKey "p" "landing") = none ∧
    c8genFail "p" "landing" = .error "boom" ∧
    generateHtmlCode [] c8genFail "p" "landing" = .error "boom" :=
  ⟨rfl, rfl, (C8_cache_only_on_success [] c8genFail "p" "landing" "boom").1 rfl rfl⟩

/-- Uniqueness of the split of a list at an element that occurs in neither
prefix remainder. -/
theorem last_marker_split {α : Type} {a : α} :
    ∀ (r1 r2 l1 l2 : List α), a ∉ r1 → a ∉ r2 →
      r1 ++ a :: l1 = r2 ++ a :: l2 → r1 = r2 ∧ l1 = l2 := by
  intro r1
  induction r1 with
  | nil =>
    intro r2 l1 l2 h1 h2 heq
    cases r2 with
    | nil => simpa using heq
    | cons b r2 =>
      simp only [List.nil_append, List.cons_append, List.cons.injEq] at heq
      exact absurd (by rw [heq.1]; exact List.mem_cons_self b r2) h2
  | cons b r1 ih =>
    intro r2 l1 l2 h1 h2 heq
    cases r2 with
    | nil =>
      simp only [List.nil_append, List.cons_append, List.cons.injEq] at heq
      exact absurd (by rw [← heq.1]; exact List.mem_cons_self b r1) h1
    | cons c r2 =>
      simp only [List.cons_append, List.cons.injEq] at heq
      have hrec := ih r2 l1 l2 (fun hm => h1 (List.mem_cons_of_mem b hm))
        (fun hm => h2 (List.mem_cons_of_mem c hm)) heq.2
      exact ⟨by rw [heq.1, hrec.1], hrec.2⟩

/-- C9 amended: the cache key `prompt ++ ":" ++ type` is injective on the
pair when restricted to content types containing no colon (the enumerated
types of the source satisfy this); without that restriction distinct pairs
can collide (see the counterexample). -/
theorem C9_cache_key_injective_on_colon_free_types (p1 t1 p2 t2 : String)
    (h1 : (':' : Char) ∉ t1.data) (h2 : (':' : Char) ∉ t2.data)
    (hkey : cacheKey p1 t1 = cacheKey p2 t2) : p1 = p2 ∧ t1 = t2 := by
  have hcolon : (":" : String).data = [':'] := rfl
  have hd : p1.data ++ ':' :: t1.data = p2.data ++ ':' :: t2.data := by
    have hx := congrArg String.data hkey
    rw [cacheKey, cacheKey, String.data_append, String.data_append,
      String.data_append, String.data_append, hcolon] at hx
    simpa using hx
  have hrev : t1.data.reverse ++ ':' :: p1.data.reverse =
      t2.data.reverse ++ ':' :: p2.data.reverse := by
    have hx := congrArg List.reverse hd
    simpa [List.reverse_append] using hx
  obtain ⟨ht, hp⟩ := last_marker_split t1.data.reverse t2.data.reverse
    p1.data.reverse p2.data.reverse (by simpa using h1) (by simpa using h2) hrev
  constructor
  · apply String.ext
    have hx := congrArg List.reverse hp
    simpa using hx
  · apply String.ext
    have hx := congrArg List.reverse ht
    simpa using hx

/-- C9 witness: the amended injectivity applied to a colon-free type. -/
theorem C9_cache_key_injective_witness :
    ((':' : Char) ∉ ("landing" : String).data) ∧ ("x" = "x" ∧ "landing" = "landing") :=
  ⟨by decide,
   C9_cache_key_injective_on_colon_free_types "x" "landing" "x" "landing"
     (by decide) (by decide) rfl⟩

/-- Decimal printing is injective on the indices the variation loop can
produce. -/
theorem toString_nat_inj_small : ∀ i < 11, ∀ j < 11, toString (i : Nat) = toString j → i = j := by
  decide

/-- A varied prompt is strictly longer than the base prompt, hence distinct
from it. -/
theorem variedPromptFor_ne (prompt : String) (i : Nat) :
    variedPromptFor prompt i ≠ prompt := by
  intro h
  have hlen := congrArg String.length h
  rw [variedPromptFor, String.length_append, variationMarker, String.length_append,
    String.length_append] at hlen
  have h1 : (" (variation " : String).length = 12 := rfl
  have h2 : (": focus on unique layout and color scheme)" : String).length = 42 := rfl
  rw [h1, h2] at hlen
  omega

/-- Two variation markers with distinct small indices are distinct. -/
theorem variationMarker_inj {i j : Nat} (hi : i < 11) (hj : j < 11)
    (h : variationMarker i = variationMarker j) : i = j := by
  have hd := congrArg String.data h
  rw [variationMarker, variationMarker, String.data_append, String.data_append,
    String.data_append, String.data_append] at hd
  have h1 := List.append_cancel_right hd
  have h2 := List.append_cancel_left h1
  exact toString_nat_inj_small i hi j hj (String.ext h2)

/-- Two varied prompts with distinct small indices are distinct. -/
theorem variedPromptFor_inj (prompt : String) {i j : Nat} (hi : i < 11) (hj : j < 11)
    (h : variedPromptFor prompt i = variedPromptFor prompt j) : i = j := by
  have hd := congrArg String.data h
  rw [variedPromptFor, variedPromptFor, String.data_append, String.data_append] at hd
  exact variationMarker_inj hi hj (String.ext (List.append_cancel_left hd))

/-- Cache keys with the same type component determine the prompt. -/
theorem cacheKey_inj_prompt {p1 p2 t : String} (h : cacheKey p1 t = cacheKey p2 t) :
    p1 = p2 := by
  have hd := congrArg String.data h
  rw [cacheKey, cacheKey, String.data_append, String.data_append] at hd
  have h1 := List.append_cancel_right hd
  have h2 := List.append_cancel_right h1
  exact String.ext h2

/-- Characterization of a successful variation loop run: `n` results whose
indices are `i+1 .. i+n` in order, each carrying its varied prompt and the
requested type. -/
theorem genVarsLoop_ok (gen : String → String → Except String String)
    (prompt type : String) :
    ∀ (n i : Nat) (c : Cache) (rs : List VariationResult) (c2 : Cache),
      genVarsLoop gen prompt type n i c = .ok (rs, c2) →
      rs.length = n ∧
      rs.map (fun r => r.variation_id) = List.range' (i + 1) n ∧
      ∀ r ∈ rs, r.prompt = variedPromptFor prompt r.variation_id ∧ r.type = type ∧
        i + 1 ≤ r.variation_id ∧ r.variation_id ≤ i + n := by
  intro n
  induction n with
  | zero =>
    intro i c rs c2 h
    simp only [genVarsLoop, Except.ok.injEq, Prod.mk.injEq] at h
    obtain ⟨hrs, hc⟩ := h
    subst hrs
    exact ⟨rfl, rfl, by simp⟩
  | succ n ih =>
    intro i c rs c2 h
    simp only [genVarsLoop] at h
    cases hg : generateHtmlCode c gen (variedPromptFor prompt (i + 1)) type with
    | error e =>
      rw [hg] at h
      exact absurd h (by simp)
    | ok pr =>
      obtain ⟨html, c1⟩ := pr
      simp only [hg] at h
      cases hl : genVarsLoop gen prompt type n (i + 1) c1 with
      | error e =>
        simp only [hl] at h
        exact absurd h (by simp)
      | ok pr2 =>
        obtain ⟨rest, cc⟩ := pr2
        simp only [hl] at h
        simp only [Except.ok.injEq, Prod.mk.injEq] at h
        obtain ⟨hrs, hc⟩ := h
        subst hrs
        obtain ⟨hlen, hmap, hall⟩ := ih (i + 1) c1 rest cc hl
        refine ⟨by simp [hlen], ?_, ?_⟩
        · show (i + 1) :: rest.map (fun r => r.variation_id) = List.range' (i + 1) (n + 1)
          rw [hmap, List.range'_succ]
        · intro r hr
          rcases List.mem_cons.mp hr with hhead | htail
          · subst hhead
            exact ⟨rfl, rfl, by dsimp only; omega, by dsimp only; omega⟩
          · obtain ⟨hp, htype, hlo, hhi⟩ := hall r htail
            exact ⟨hp, htype, by omega, by omega⟩

/-- C10: a successful `generateVariations` call returns exactly
`min count 10` entries carrying the variation indices `1 .. min count 10`
in order; each entry's instruction is the base prompt plus its variation
marker, differs from the base prompt and has a cache key differing from the
base prompt's key; entries with distinct indices have distinct instructions
and distinct cache keys.  The function reads and writes only the generation
cache — by construction it has no access to the website/version store, so no
artifact or version is created. -/
theorem C10_variations_contract (c : Cache) (gen : String → String → Except String String)
    (prompt type : String) (count : Nat) :
    ∀ rs c2, generateVariations c gen prompt type count = .ok (rs, c2) →
      rs.length = min count 10 ∧
      rs.map (fun r => r.variation_id) = List.range' 1 (min count 10) ∧
      (∀ r ∈ rs, r.prompt = variedPromptFor prompt r.variation_id ∧
        r.prompt ≠ prompt ∧ cacheKey r.prompt type ≠ cacheKey prompt type) ∧
      (∀ r ∈ rs, ∀ q ∈ rs, r.variation_id ≠ q.variation_id →
        r.prompt ≠ q.prompt ∧ cacheKey r.prompt type ≠ cacheKey q.prompt type) := by
  intro rs c2 h
  have h2 : genVarsLoop gen prompt type (min count 10) 0 c = .ok (rs, c2) := h
  obtain ⟨hlen, hmap, hall⟩ := genVarsLoop_ok gen prompt type (min count 10) 0 c rs c2 h2
  refine ⟨hlen, hmap, ?_, ?_⟩
  · intro r hr
    obtain ⟨hp, htype, hlo, hhi⟩ := hall r hr
    refine ⟨hp, ?_, ?_⟩
    · rw [hp]
      exact variedPromptFor_ne prompt r.variation_id
    · intro hk
      exact variedPromptFor_ne prompt r.variation_id (by rw [← hp]; exact cacheKey_inj_prompt hk)
  · intro r hr q hq hne
    obtain ⟨hpr, _, hlor, hhir⟩ := hall r hr
    obtain ⟨hpq, _, hloq, hhiq⟩ := hall q hq
    have hne2 : r.prompt ≠ q.prompt := by
      intro hpe
      apply hne
      rw [hpr, hpq] at hpe
      exact variedPromptFor_inj prompt (by omega) (by omega) hpe
    exact ⟨hne2, fun hk => hne2 (cacheKey_inj_prompt hk)⟩

/-- C10 witness: two variations generated from prompt "p" with a constant
generator satisfy the contract. -/
theorem C10_variations_contract_witness :
    generateVariations [] c10gen "p" "landing" 2 = .ok (c10rs, c10c) ∧
    c10rs.length = min 2 10 ∧
    c10rs.map (fun r => r.variation_id) = List.range' 1 (min 2 10) :=
  ⟨rfl,
   (C10_variations_contract [] c10gen "p" "landing" 2 c10rs c10c rfl).1,
   (C10_variations_contract [] c10gen "p" "landing" 2 c10rs c10c rfl).2.1⟩
